import Mathlib

/-!
Verification of the lidbox end-to-end command layer (`lidbox/commands/e2e.py`):
utterance-registry construction, feature-backend dispatch, configuration
fingerprinting and feature-cache paths, label one-hot encoding, and the
prediction scores/trials writers.

The Python code is shallowly embedded: manifests are given as the lists of
(already whitespace-split) rows that `parse_space_separated` would yield,
ordered dictionaries are association lists preserving insertion order, and
fallible code returns `Except`/`Option`.  External library calls
(`json.dumps`, `hashlib.md5`, `tf.one_hot`, `tf.lookup.StaticHashTable`,
`np.format_float_positional`, `os.path.join`, `print`) are modelled from
their documented semantics, since they are not part of this repository.
-/

set_option linter.unusedVariables false

/-- JSON values as they occur in the experiment configuration mapping.
Numbers are modelled as integers (the configuration subtrees fingerprinted
by `config_checksum` consist of strings, integers, booleans, lists and
objects; float-valued entries are outside the scope of the claims checked
here). -/
inductive Json where
  | null
  | bool (b : Bool)
  | num (n : Int)
  | str (s : String)
  | arr (elems : List Json)
  | obj (fields : List (String × Json))
deriving Repr

/-- Two lowercase hexadecimal digits of a byte value below 256. -/
def hexDigit (n : Nat) : Char :=
  if n < 10 then Char.ofNat (48 + n) else Char.ofNat (87 + n)

/-- Render a byte as two lowercase hexadecimal digits. -/
def byteToHex (b : Nat) : String :=
  String.mk [hexDigit (b / 16), hexDigit (b % 16)]

/-- Escape one character the way `json.dumps` with `ensure_ascii=False`
does: only the double quote, the backslash and control characters below
0x20 are escaped; everything else (including non-ASCII) is kept verbatim. -/
def jsonEscapeChar (c : Char) : String :=
  if c = '"' then "\\\""
  else if c = '\\' then "\\\\"
  else if c = '\n' then "\\n"
  else if c = '\t' then "\\t"
  else if c = '\r' then "\\r"
  else if c.toNat = 8 then "\\b"
  else if c.toNat = 12 then "\\f"
  else if c.toNat < 32 then "\\u00" ++ byteToHex c.toNat
  else String.singleton c

/-- A JSON string literal as printed by `json.dumps(ensure_ascii=False)`. -/
def jsonQuote (s : String) : String :=
  "\"" ++ String.join (s.data.map jsonEscapeChar) ++ "\""

/-- Lexicographic code-point comparison of character lists — the order
Python uses to compare strings. -/
def charListLe : List Char → List Char → Bool
  | [], _ => true
  | _ :: _, [] => false
  | a :: as, b :: bs =>
    if a.toNat < b.toNat then true
    else if b.toNat < a.toNat then false
    else charListLe as bs

/-- Python string comparison `a <= b`: lexicographic on code points. -/
def strLe (a b : String) : Bool :=
  charListLe a.data b.data

/-- Insert a key/value pair into a key-sorted list, keeping it sorted
(ascending by key, as `sort_keys=True` sorts Python strings). -/
def insertByKey (p : String × String) : List (String × String) → List (String × String)
  | [] => [p]
  | q :: rest => if strLe p.1 q.1 then p :: q :: rest else q :: insertByKey p rest

/-- Insertion sort by key, modelling the ascending key order produced by
`json.dumps(..., sort_keys=True)`. -/
def sortByKey : List (String × String) → List (String × String)
  | [] => []
  | p :: rest => insertByKey p (sortByKey rest)

mutual

/-- Serialization exactly as `json.dumps(value, ensure_ascii=False,
sort_keys=True)` renders it with the default separators `", "` and `": "`.
Object fields are serialized recursively and then sorted by key; since
sorting keys commutes with serializing the attached values, this equals
sorting first and serializing afterwards. -/
def Json.serialize : Json → String
  | .null => "null"
  | .bool b => cond b "true" "false"
  | .num n => toString n
  | .str s => jsonQuote s
  | .arr elems => "[" ++ String.intercalate ", " (Json.serializeList elems) ++ "]"
  | .obj fields =>
      "\x7b" ++
        String.intercalate ", "
          ((sortByKey (Json.serializeFields fields)).map
            (fun kv => jsonQuote kv.1 ++ ": " ++ kv.2)) ++
      "\x7d"

/-- Serialize every array element. -/
def Json.serializeList : List Json → List String
  | [] => []
  | v :: rest => Json.serialize v :: Json.serializeList rest

/-- Serialize every object field value, keeping the key. -/
def Json.serializeFields : List (String × Json) → List (String × String)
  | [] => []
  | (k, v) :: rest => (k, Json.serialize v) :: Json.serializeFields rest

end

/-! ### MD5 (`hashlib.md5(...).hexdigest()`)

`hashlib` is the Python standard library, not repository code; it is
modelled here by a direct implementation of RFC 1321 over byte lists. -/

/-- UTF-8 encoding of a single code point (`str.encode("utf-8")`). -/
def utf8EncodeChar (n : Nat) : List Nat :=
  if n < 128 then [n]
  else if n < 2048 then [192 + n / 64, 128 + n % 64]
  else if n < 65536 then [224 + n / 4096, 128 + (n / 64) % 64, 128 + n % 64]
  else [240 + n / 262144, 128 + (n / 4096) % 64, 128 + (n / 64) % 64, 128 + n % 64]

/-- UTF-8 bytes of a string. -/
def utf8Bytes (s : String) : List Nat :=
  s.data.flatMap (fun c => utf8EncodeChar c.toNat)

/-- The 64 MD5 round constants `K[i] = floor(abs(sin(i+1)) * 2^32)`. -/
def md5K : List Nat :=
  [3614090360, 3905402710, 606105819, 3250441966,
   4118548399, 1200080426, 2821735955, 4249261313,
   1770035416, 2336552879, 4294925233, 2304563134,
   1804603682, 4254626195, 2792965006, 1236535329,
   4129170786, 3225465664, 643717713, 3921069994,
   3593408605, 38016083, 3634488961, 3889429448,
   568446438, 3275163606, 4107603335, 1163531501,
   2850285829, 4243563512, 1735328473, 2368359562,
   4294588738, 2272392833, 1839030562, 4259657740,
   2763975236, 1272893353, 4139469664, 3200236656,
   681279174, 3936430074, 3572445317, 76029189,
   3654602809, 3873151461, 530742520, 3299628645,
   4096336452, 1126891415, 2878612391, 4237533241,
   1700485571, 2399980690, 4293915773, 2240044497,
   1873313359, 4264355552, 2734768916, 1309151649,
   4149444226, 3174756917, 718787259, 3951481745]

/-- The 64 MD5 per-round left-rotation amounts. -/
def md5S : List Nat :=
  [7, 12, 17, 22, 7, 12, 17, 22, 7, 12, 17, 22, 7, 12, 17, 22,
   5, 9, 14, 20, 5, 9, 14, 20, 5, 9, 14, 20, 5, 9, 14, 20,
   4, 11, 16, 23, 4, 11, 16, 23, 4, 11, 16, 23, 4, 11, 16, 23,
   6, 10, 15, 21, 6, 10, 15, 21, 6, 10, 15, 21, 6, 10, 15, 21]

/-- Left rotation of a 32-bit word. -/
def rotl32 (x s : Nat) : Nat :=
  ((x <<< s) ||| (x >>> (32 - s))) % 4294967296

/-- One of the 64 MD5 rounds on the state `(a, b, c, d)` with the sixteen
message words `m` of the current chunk. -/
def md5Step (m : List Nat) (st : Nat × Nat × Nat × Nat) (i : Nat) :
    Nat × Nat × Nat × Nat :=
  let (a, b, c, d) := st
  let fg : Nat × Nat :=
    if i < 16 then ((b &&& c) ||| ((b ^^^ 4294967295) &&& d), i)
    else if i < 32 then ((d &&& b) ||| ((d ^^^ 4294967295) &&& c), (5 * i + 1) % 16)
    else if i < 48 then (b ^^^ c ^^^ d, (3 * i + 5) % 16)
    else (c ^^^ (b ||| (d ^^^ 4294967295)), (7 * i) % 16)
  let tmp := (a + fg.1 + md5K.getD i 0 + m.getD fg.2 0) % 4294967296
  (d, (b + rotl32 tmp (md5S.getD i 0)) % 4294967296, b, c)

/-- Group little-endian byte quadruples into 32-bit words. -/
def bytesToWordsLE : List Nat → List Nat
  | b0 :: b1 :: b2 :: b3 :: rest =>
      (b0 + 256 * b1 + 65536 * b2 + 16777216 * b3) :: bytesToWordsLE rest
  | _ => []

/-- Process one 64-byte chunk, updating the running MD5 state. -/
def md5Chunk (st : Nat × Nat × Nat × Nat) (chunk : List Nat) :
    Nat × Nat × Nat × Nat :=
  let m := bytesToWordsLE chunk
  let (a0, b0, c0, d0) := st
  let (a, b, c, d) := (List.range 64).foldl (md5Step m) st
  ((a0 + a) % 4294967296, (b0 + b) % 4294967296,
   (c0 + c) % 4294967296, (d0 + d) % 4294967296)

/-- MD5 padding: a 1-bit, zero bytes up to 56 mod 64, then the bit length
as a 64-bit little-endian integer. -/
def md5Pad (msg : List Nat) : List Nat :=
  let len := msg.length
  let zeros := (120 - (len + 1) % 64) % 64
  msg ++ [128] ++ List.replicate zeros 0 ++
    (List.range 8).map (fun i => ((8 * len) >>> (8 * i)) % 256)

/-- Split a byte list into 64-byte chunks (structurally, on a fuel bound
that the list length always satisfies). -/
def chunks64Go (fuel : Nat) (l : List Nat) : List (List Nat) :=
  match fuel with
  | 0 => []
  | fuel + 1 => if l = [] then [] else l.take 64 :: chunks64Go fuel (l.drop 64)

/-- Split a byte list into 64-byte chunks. -/
def chunks64 (l : List Nat) : List (List Nat) :=
  chunks64Go l.length l

/-- Four little-endian bytes of a 32-bit word, in lowercase hex. -/
def wordToHexLE (w : Nat) : String :=
  byteToHex (w % 256) ++ byteToHex ((w >>> 8) % 256) ++
  byteToHex ((w >>> 16) % 256) ++ byteToHex ((w >>> 24) % 256)

/-- `hashlib.md5(s.encode("utf-8")).hexdigest()`: MD5 per RFC 1321 of the
UTF-8 bytes of `s`, rendered as 32 lowercase hex digits. -/
def md5hex (s : String) : String :=
  let padded := md5Pad (utf8Bytes s)
  let (a, b, c, d) :=
    (chunks64 padded).foldl md5Chunk (1732584193, 4023233417, 2562383102, 271733878)
  wordToHexLE a ++ wordToHexLE b ++ wordToHexLE c ++ wordToHexLE d

/-! ### Configuration fingerprint (`config_checksum`, e2e.py lines 50-55) -/

/-- The experiment configuration: a Python dict modelled as an association
list from top-level keys to JSON subtrees, in insertion order. -/
abbrev Config := List (String × Json)

/-- Python dict lookup `config[k]`, `None` when the key is absent (in which
case the Python code raises `KeyError`). -/
def jsonGet (config : Config) (key : String) : Option Json :=
  match config with
  | [] => none
  | (k, v) :: rest => if k = key then some v else jsonGet rest key

/-- e2e.py lines 50-55: build `md5input = {k: config[k] for k in
("features", "datasets")}`, serialize it with `json.dumps(md5input,
ensure_ascii=False, sort_keys=True)` plus a trailing newline, and pair the
resulting canonical JSON string with its MD5 hex digest.  The
`datagroup_key` parameter is accepted and ignored, as in the source.
`none` models the `KeyError` raised when a required key is missing. -/
def config_checksum (config : Config) (datagroup_key : String) :
    Option (String × String) :=
  match jsonGet config "features", jsonGet config "datasets" with
  | some f, some d =>
      let json_str :=
        Json.serialize (Json.obj [("features", f), ("datasets", d)]) ++ "\n"
      some (json_str, md5hex json_str)
  | _, _ => none

/-! ### Utterance registry (`E2EBase.extract_features`, e2e.py lines 134-242)

Manifest files are given as the lists of (id, value) rows that
`parse_space_separated` yields for them (one entry per non-empty line,
first two whitespace-separated fields; further fields are ignored by the
destructuring `utt, x, *rest`). -/

/-- The value stored in `utt2meta` for one utterance (e2e.py line 162).
The duration is kept as the raw manifest field; `"-1.0"` is the sentinel
for an unknown duration. -/
structure UttMeta where
  label : String
  dataset : String
  duration_sec : String
deriving Repr, DecidableEq

/-- The fatal `assert`/`KeyError` failures of registry construction. -/
inductive RegError where
  | dupLabel (utt : String)
  | durWithoutLabel (utt : String)
  | dupPath (utt : String)
  | mismatch
  | keyError (utt : String)
deriving Repr, DecidableEq

/-- One dataset entry of the configuration, restricted to the datagroup
being extracted: its key, its enabled label list, and the parsed rows of
its three manifests (`utt2dur` is `none` when the file does not exist). -/
structure DatasetConf where
  key : String
  labels : List String
  utt2label : List (String × String)
  utt2dur : Option (List (String × String))
  utt2path : List (String × String)
deriving Repr, DecidableEq

/-- Membership test of an ordered dict, `utt in d`. -/
def alistContains (l : List (String × α)) (k : String) : Bool :=
  l.any (fun p => p.1 == k)

/-- Lookup in an ordered dict, `d[utt]`. -/
def alistGet? (l : List (String × α)) (k : String) : Option α :=
  match l with
  | [] => none
  | p :: rest => if p.1 == k then some p.2 else alistGet? rest k

/-- e2e.py lines 157-162: walk the `utt2label` rows of one dataset.  Rows
whose label is not enabled add their id to `skipped_utterances`; otherwise
a duplicate id in `utt2meta` is a fatal assertion, and the row inserts
`{"label": label, "dataset": ds.key, "duration_sec": -1.0}`. -/
def parseLabels (enabled : List String) (dsKey : String) :
    List (String × String) → List (String × UttMeta) → List String →
    Except RegError (List (String × UttMeta) × List String)
  | [], utt2meta, skipped => .ok (utt2meta, skipped)
  | (utt, label) :: rest, utt2meta, skipped =>
    if enabled.contains label then
      if alistContains utt2meta utt then .error (.dupLabel utt)
      else parseLabels enabled dsKey rest
        (utt2meta ++ [(utt, ⟨label, dsKey, "-1.0"⟩)]) skipped
    else parseLabels enabled dsKey rest utt2meta (skipped ++ [utt])

/-- e2e.py lines 167-169: walk the optional `utt2dur` rows; every id must
already carry a label (fatal assertion otherwise), and the row overwrites
the stored duration. -/
def parseDurations :
    List (String × String) → List (String × UttMeta) →
    Except RegError (List (String × UttMeta))
  | [], utt2meta => .ok utt2meta
  | (utt, duration) :: rest, utt2meta =>
    if alistContains utt2meta utt then
      parseDurations rest
        (utt2meta.map (fun p =>
          if p.1 == utt then (p.1, { p.2 with duration_sec := duration }) else p))
    else .error (.durWithoutLabel utt)

/-- e2e.py lines 175-179: walk the `utt2path` rows of one dataset.  Ids in
this dataset's `skipped_utterances` are silently skipped (the `continue`
precedes the duplicate assertion); otherwise a duplicate id in the global
`utt2path` is a fatal assertion. -/
def parsePaths (skipped : List String) :
    List (String × String) → List (String × String) →
    Except RegError (List (String × String))
  | [], utt2path => .ok utt2path
  | (utt, path) :: rest, utt2path =>
    if skipped.contains utt then parsePaths skipped rest utt2path
    else if alistContains utt2path utt then .error (.dupPath utt)
    else parsePaths skipped rest (utt2path ++ [(utt, path)])

/-- Body of the `for ds_config in datasets` loop (e2e.py lines 143-179):
labels, then durations, then paths, threading the run-global `utt2path`
and `utt2meta` dicts and a per-dataset `skipped_utterances` set. -/
def processDataset (st : List (String × String) × List (String × UttMeta))
    (ds : DatasetConf) :
    Except RegError (List (String × String) × List (String × UttMeta)) :=
  match parseLabels ds.labels ds.key ds.utt2label st.2 [] with
  | .error e => .error e
  | .ok (utt2meta, skipped) =>
    match (match ds.utt2dur with
           | some rows => parseDurations rows utt2meta
           | none => .ok utt2meta) with
    | .error e => .error e
    | .ok utt2meta =>
      match parsePaths skipped ds.utt2path st.1 with
      | .error e => .error e
      | .ok utt2path => .ok (utt2path, utt2meta)

/-- The whole dataset loop, from a given starting state. -/
def buildMapsFrom (st : List (String × String) × List (String × UttMeta)) :
    List DatasetConf →
    Except RegError (List (String × String) × List (String × UttMeta))
  | [] => .ok st
  | ds :: rest =>
    match processDataset st ds with
    | .error e => .error e
    | .ok st2 => buildMapsFrom st2 rest

/-- e2e.py lines 136-179: the merged `utt2path` and `utt2meta` ordered
dicts over all datasets, starting from empty dicts. -/
def buildMaps (dss : List DatasetConf) :
    Except RegError (List (String × String) × List (String × UttMeta)) :=
  buildMapsFrom ([], []) dss

/-- The id set of an ordered dict, `set(d)`. -/
def keyset (l : List (String × α)) : Finset String :=
  (l.map Prod.fst).toFinset

/-- The registry state right after the consistency assert (e2e.py lines
183-185): the ordered utterance id list and both manifest dicts. -/
structure Registry where
  utterance_list : List String
  utt2path : List (String × String)
  utt2meta : List (String × UttMeta)
deriving Repr, DecidableEq

/-- e2e.py lines 136-185: merge all dataset manifests, then assert
`set(utt2path) == set(utt2meta)` (fatal mismatch otherwise) and take
`utterance_list = list(utt2path.keys())`. -/
def build_registry (dss : List DatasetConf) : Except RegError Registry :=
  match buildMaps dss with
  | .error e => .error e
  | .ok (utt2path, utt2meta) =>
    if keyset utt2path = keyset utt2meta then
      .ok ⟨utt2path.map Prod.fst, utt2path, utt2meta⟩
    else .error .mismatch

/-- e2e.py lines 186-196: optionally shuffle the utterance id list
(`random.shuffle`, modelled by the permutation `perm` it applies in this
run), then truncate to `--file-limit` when that is set (`if
args.file_limit:` is false for an absent limit, modelled as `0`). -/
def selectUtterances (shuffle : Bool) (perm : List String → List String)
    (file_limit : Nat) (utterance_list : List String) : List String :=
  let l := if shuffle then perm utterance_list else utterance_list
  if file_limit ≠ 0 then l.take file_limit else l

/-- The three feature-extraction backends of e2e.py lines 212-242. -/
inductive Backend where
  | sparsespeech
  | kaldi
  | rawAudio
deriving Repr, DecidableEq

/-- e2e.py lines 212-242: backend selection on `config["type"]` — the
`sparsespeech` and `kaldi` tags pick the precomputed backends, every other
value falls to the `else` branch calling
`tf_data.extract_features_from_paths`. -/
def dispatchBackend (featureType : String) : Backend :=
  if featureType == "sparsespeech" then .sparsespeech
  else if featureType == "kaldi" then .kaldi
  else .rawAudio

/-- e2e.py lines 200-205: align `paths` and `paths_meta` with the selected
utterance list via `utt2path[utt]` and `utt2meta[utt]` (a missing id would
be a `KeyError`). -/
def assemblePathsMeta (utt2path : List (String × String))
    (utt2meta : List (String × UttMeta)) :
    List String →
    Except RegError (List String × List (String × String × String × String))
  | [] => .ok ([], [])
  | utt :: rest =>
    match alistGet? utt2path utt, alistGet? utt2meta utt with
    | some path, some meta => do
      let (paths, paths_meta) ← assemblePathsMeta utt2path utt2meta rest
      .ok (path :: paths, (utt, meta.label, meta.dataset, meta.duration_sec) :: paths_meta)
    | _, _ => .error (.keyError utt)

/-- e2e.py lines 134-242, `E2EBase.extract_features` up to the backend
call: registry construction, shuffle/truncation, path/metadata alignment
and backend dispatch. -/
def extract_features (dss : List DatasetConf) (featureType : String)
    (shuffle : Bool) (perm : List String → List String) (file_limit : Nat) :
    Except RegError
      (Backend × List String × List String ×
        List (String × String × String × String)) :=
  match build_registry dss with
  | .error e => .error e
  | .ok reg =>
    let utterance_list := selectUtterances shuffle perm file_limit reg.utterance_list
    match assemblePathsMeta reg.utt2path reg.utt2meta utterance_list with
    | .error e => .error e
    | .ok (paths, paths_meta) =>
      .ok (dispatchBackend featureType, utterance_list, paths, paths_meta)

/-! ### Label one-hot encoding (`make_label2onehot`, e2e.py lines 36-48,
and the `label2onehot` closures of `Train.train` lines 292-300)

`tf.one_hot` values 1.0/0.0 are represented exactly by the naturals 1/0.
`tf.lookup.StaticHashTable` with default value `len(labels)` maps a key to
its position in `labels` and an unknown key to `len(labels)`, which is
what `List.indexOf` computes. -/

/-- The runtime failures of the TensorFlow calls involved in encoding. -/
inductive TfError where
  | sliceOutOfBounds (index : Nat)
  | concatMissingAxis
deriving Repr, DecidableEq

/-- `tf.one_hot(tf.range(n), n)`: the n-by-n identity pattern. -/
def oneHotMatrix (n : Nat) : List (List Nat) :=
  (List.range n).map (fun i => (List.range n).map (fun j => if j = i then 1 else 0))

/-- e2e.py lines 36-48: the label-to-int lookup table (label to its
position, or one past the last position if not found) and the one-hot
matrix `OH`. -/
def make_label2onehot (labels : List String) : (String → Nat) × List (List Nat) :=
  (fun label => labels.indexOf label, oneHotMatrix labels.length)

/-- e2e.py lines 299-300 (the branch without `onehot_dims`):
`OH[label2int.lookup(label)]`.  An out-of-range index makes the tensor
slice raise at the first access; it never yields a zero vector. -/
def label2onehot (labels : List String) (label : String) : Except TfError (List Nat) :=
  let li := make_label2onehot labels
  match li.2[li.1 label]? with
  | some row => .ok row
  | none => .error (.sliceOutOfBounds (li.1 label))

/-- Model of `tf.concat` as called at e2e.py line 297: the call passes only
the values tuple and omits the mandatory `axis` argument, so it raises
`TypeError` before concatenating anything (with `axis=0` supplied the
result would be the zero-padded vector). -/
def tfConcatNoAxis (values : List (List Nat)) : Except TfError (List Nat) :=
  .error .concatMissingAxis

/-- e2e.py lines 295-297 (the branch with `onehot_dims` configured):
`tf.concat((o, tf.zeros(onehot_dims - tf.size(o))))` applied to
`o = OH[label2int.lookup(label)]`. -/
def label2onehotPadded (onehot_dims : Nat) (labels : List String)
    (label : String) : Except TfError (List Nat) := do
  let o ← label2onehot labels label
  tfConcatNoAxis [o, List.replicate (onehot_dims - o.length) 0]

/-! ### Scores and trials writers (`Predict.predict`, e2e.py lines 631-646) -/

/-- Python `print(*args, sep=sep, file=f)` with the default `end`: the
arguments joined by `sep`, followed by a newline. -/
def pyPrintLine (args : List String) (sep : String) : String :=
  String.intercalate sep args ++ "\n"

/-- Python `print(*args, sep=sep, end=endStr, file=f)`. -/
def pyPrintTo (args : List String) (sep endStr : String) : String :=
  String.intercalate sep args ++ endStr

/-- Digits after trimming trailing zeros. -/
def trimTrailingZeros (l : List Char) : List Char :=
  (l.reverse.dropWhile (fun c => c == '0')).reverse

/-- A natural number as exactly `width` decimal digits (left zero-padded). -/
def padDigits (width : Nat) (n : Nat) : List Char :=
  let ds := (toString n).data
  List.replicate (width - ds.length) '0' ++ ds

/-- Model of `np.format_float_positional(x, precision=p)` with the numpy
defaults `unique=True, fractional=True, trim="k"` for a nonnegative
argument: numpy generates the shortest digit string identifying the value,
cut off after at most `p` fractional digits with rounding, and pads
nothing, so trailing zeros are absent and an integral value ends with a
bare decimal point.  numpy works on the binary float closest to the
written decimal; on exact rationals this is modelled as rounding to `p`
fractional digits and trimming trailing zeros, which agrees for inputs
whose shortest representation is the written decimal. -/
def formatFloatPositionalNonneg (q : ℚ) (precision : Nat) : String :=
  let scaled : Nat :=
    (2 * q.num.toNat * 10 ^ precision + q.den) / (2 * q.den)
  let ip : Nat := scaled / 10 ^ precision
  let fp : Nat := scaled % 10 ^ precision
  toString ip ++ "." ++ String.mk (trimTrailingZeros (padDigits precision fp))

/-- `np.format_float_positional` including the sign of a negative score.
`scaled` above is the round-half-up of `q * 10 ^ precision`, written out on
the numerator and denominator. -/
def format_float_positional (q : ℚ) (precision : Nat) : String :=
  if q.num < 0 then "-" ++ formatFloatPositionalNonneg (-q) precision
  else formatFloatPositionalNonneg q precision

/-- e2e.py lines 643-645: one scores row, `print(utt, *pred_scores,
sep=args.score_separator, file=scores_f)` where `pred_scores` formats each
score with `np.format_float_positional(x, precision=args.score_precision)`. -/
def scoresLine (score_separator : String) (score_precision : Nat)
    (utt : String) (pred : List ℚ) : String :=
  pyPrintLine (utt :: pred.map (fun x => format_float_positional x score_precision))
    score_separator

/-- e2e.py lines 641-646: the scores file.  The header row
`print(*int2label, file=scores_f)` joins the label vocabulary with the
default separator (a space, regardless of `--score-separator`); then one
row per (utterance id, prediction vector) pair of
`zip(utterance_ids, predictions)`, in stream order. -/
def scoresFileContent (int2label : List String)
    (rows : List (String × List ℚ))
    (score_separator : String) (score_precision : Nat) : String :=
  pyPrintLine int2label " " ++
    String.join (rows.map (fun r => scoresLine score_separator score_precision r.1 r.2))

/-- e2e.py lines 631-634: the trials file, one row `lang utt target` or
`lang utt nontarget` per (utterance, language) pair, `target` iff the
utterance's true label equals the language. -/
def trialsFileContent (int2label : List String)
    (utt2label : List (String × String)) : String :=
  String.join (utt2label.map (fun ut =>
    String.join (int2label.map (fun lang =>
      pyPrintLine [lang, ut.1, if ut.2 == lang then "target" else "nontarget"] " "))))

/-! ### Cache marker file and cache paths (`Train.train` lines 332-345,
`Predict.predict` lines 593-607) -/

/-- e2e.py lines 344-345 and 606-607: `print(conf_json, file=f, end="")` —
what a fresh marker file `<cache_path>.md5sum-input` receives: the single
argument joined with the default separator and the empty end string. -/
def markerFileContent (conf_json : String) : String :=
  pyPrintTo [conf_json] " " ""

/-- First character is a slash (`b.startswith("/")`, posix absolute). -/
def strStartsWithSlash (s : String) : Bool :=
  s.data.head? = some '/'

/-- Last character is a slash. -/
def strEndsWithSlash (s : String) : Bool :=
  s.data.getLast? = some '/'

/-- `posixpath.join` of two components: an absolute second component
replaces the first; otherwise a `"/"` is inserted unless the first part is
empty or already ends with one. -/
def ospathJoin (a b : String) : String :=
  if strStartsWithSlash b then b
  else if a = "" || strEndsWithSlash a then a ++ b
  else a ++ "/" ++ b

/-- e2e.py lines 336-341 (`Train.train`): `os.path.join(features_cache_dir,
datagroup_key, feat_config["type"], conf_checksum)`. -/
def trainFeaturesCachePath (features_cache_dir datagroup_key feature_type
    conf_checksum : String) : String :=
  ospathJoin (ospathJoin (ospathJoin features_cache_dir datagroup_key)
    feature_type) conf_checksum

/-- e2e.py lines 597-603 (`Predict.predict`): `os.path.join(
features_cache_dir, experiment_config["dataset"]["key"], ds,
feat_config["type"], conf_checksum)`, where `ds` is the literal datagroup
name `"test"` of the prediction run. -/
def predictFeaturesCachePath (features_cache_dir dataset_key ds feature_type
    conf_checksum : String) : String :=
  ospathJoin (ospathJoin (ospathJoin (ospathJoin features_cache_dir
    dataset_key) ds) feature_type) conf_checksum

/-- A path component with no slash and at least one character (every key,
feature type and hex digest used by the pipeline is of this shape). -/
def plainComponent (s : String) : Bool :=
  !s.data.isEmpty && s.data.all (fun c => c != '/')

/-! ### Duplicate-id predicates used to settle the duplicate-detection
claim -/

/-- The ids of the `utt2label` rows whose label is enabled — the rows that
reach the duplicate assertion at e2e.py line 161. -/
def enabledIdsOf (enabled : List String) (rows : List (String × String)) :
    List String :=
  (rows.filter (fun r => enabled.contains r.2)).map Prod.fst

/-- The ids added to `skipped_utterances` by e2e.py line 159. -/
def skippedIdsOf (enabled : List String) (rows : List (String × String)) :
    List String :=
  (rows.filter (fun r => !enabled.contains r.2)).map Prod.fst

/-- The ids of the `utt2path` rows that survive the `continue` at e2e.py
line 177 and reach the duplicate assertion at line 178. -/
def keptIdsOf (skipped : List String) (rows : List (String × String)) :
    List String :=
  (rows.filter (fun r => !skipped.contains r.1)).map Prod.fst

/-! ### Concrete instances used in the claim theorems and witnesses -/

/-- A training configuration carrying model keys besides the two
fingerprinted subtrees. -/
def exampleConfigA : Config :=
  [("experiment", Json.obj [("name", Json.str "xvector"), ("batch_size", Json.num 32)]),
   ("features", Json.obj [("type", Json.str "mfcc"), ("coefs", Json.num 40)]),
   ("datasets", Json.arr [Json.str "common-voice"])]

/-- The same "features" and "datasets" values as `exampleConfigA`, with
every other configuration key different. -/
def exampleConfigB : Config :=
  [("features", Json.obj [("type", Json.str "mfcc"), ("coefs", Json.num 40)]),
   ("datasets", Json.arr [Json.str "common-voice"]),
   ("experiment", Json.obj [("name", Json.str "resnet"), ("batch_size", Json.num 8)]),
   ("prediction", Json.bool true)]

/-- A dataset where id "b" has a path row but no label row. -/
def mismatchDataset : DatasetConf :=
  ⟨"d1", ["en"], [("a", "en")], none, [("a", "/x"), ("b", "/y")]⟩

/-- A dataset whose id "u" has a disabled label and two path rows. -/
def skippedDupPathDataset : DatasetConf :=
  ⟨"d1", ["en"], [("u", "xx")], none, [("u", "/p1"), ("u", "/p2")]⟩

/-- A dataset with two enabled-label rows for the same id "u". -/
def dupLabelDataset : DatasetConf :=
  ⟨"d1", ["en"], [("u", "en"), ("u", "en")], none, []⟩

/-- A five-utterance dataset used for the shuffle/truncation witness. -/
def fiveUttDataset : DatasetConf :=
  ⟨"d1", ["en"],
   [("u1", "en"), ("u2", "en"), ("u3", "en"), ("u4", "en"), ("u5", "en")],
   some [("u1", "3.5")],
   [("u1", "/p1"), ("u2", "/p2"), ("u3", "/p3"), ("u4", "/p4"), ("u5", "/p5")]⟩

/-- The registry `build_registry` produces for `fiveUttDataset`. -/
def fiveUttRegistry : Registry :=
  ⟨["u1", "u2", "u3", "u4", "u5"],
   [("u1", "/p1"), ("u2", "/p2"), ("u3", "/p3"), ("u4", "/p4"), ("u5", "/p5")],
   [("u1", ⟨"en", "d1", "3.5"⟩), ("u2", ⟨"en", "d1", "-1.0"⟩),
    ("u3", ⟨"en", "d1", "-1.0"⟩), ("u4", ⟨"en", "d1", "-1.0"⟩),
    ("u5", ⟨"en", "d1", "-1.0"⟩)]⟩

/-- A minimal configuration for the cache-marker theorems. -/
def markerExampleConfig : Config :=
  [("features", Json.str "f"), ("datasets", Json.str "d"), ("experiment", Json.null)]

/-- The canonical JSON `config_checksum` derives from
`markerExampleConfig`. -/
def markerExampleJson : String :=
  "\x7b\"datasets\": \"d\", \"features\": \"f\"\x7d\n"

/-! ## Claim theorems -/

/-- C1: two configuration mappings whose values under the "features" and
"datasets" keys agree get the same (canonical JSON, digest) pair from
`config_checksum`, for any datagroup keys and regardless of every other
configuration key. -/
theorem config_checksum_depends_only_on_features_and_datasets
    (c1 c2 : Config) (k k' : String)
    (hf : jsonGet c1 "features" = jsonGet c2 "features")
    (hd : jsonGet c1 "datasets" = jsonGet c2 "datasets") :
    config_checksum c1 k = config_checksum c2 k' := by
  unfold config_checksum
  rw [hf, hd]

/-- Witness for C1: two concrete configurations differing in every key
except the two fingerprinted subtrees resolve to the same pair. -/
theorem config_checksum_depends_only_on_features_and_datasets_witness :
    jsonGet exampleConfigA "features" = jsonGet exampleConfigB "features" ∧
    jsonGet exampleConfigA "datasets" = jsonGet exampleConfigB "datasets" ∧
    config_checksum exampleConfigA "train" = config_checksum exampleConfigB "validation" :=
  ⟨rfl, rfl,
    config_checksum_depends_only_on_features_and_datasets
      exampleConfigA exampleConfigB "train" "validation" rfl rfl⟩

/-- C5 (intended behaviour check, first half) and the failing input of the
`onehot_dims` slip (second half): over the vocabulary [en, fr, de] the
encoder maps "fr" to [0, 1, 0], but with `onehot_dims = 5` configured the
encoding of "en" raises, because e2e.py line 297 calls `tf.concat` without
its mandatory `axis` argument instead of producing [1, 0, 0, 0, 0]. -/
theorem onehot_fr_correct_and_padded_en_raises :
    label2onehot ["en", "fr", "de"] "fr" = .ok [0, 1, 0] ∧
    label2onehotPadded 5 ["en", "fr", "de"] "en" = .error .concatMissingAxis :=
  ⟨rfl, rfl⟩

/-- C6: a label outside the vocabulary is looked up as the sentinel index
`labels.length` (one past the vocabulary), and indexing the one-hot table
with that sentinel raises at the first access instead of returning a zero
vector. -/
theorem unknown_label_sentinel_raises (labels : List String) (label : String)
    (h : label ∉ labels) :
    (make_label2onehot labels).1 label = labels.length ∧
    label2onehot labels label = .error (.sliceOutOfBounds labels.length) := by
  have hidx : labels.indexOf label = labels.length := List.indexOf_eq_length.mpr h
  refine ⟨hidx, ?_⟩
  unfold label2onehot
  simp only [make_label2onehot, hidx]
  have hlen : (oneHotMatrix labels.length).length ≤ labels.length := by
    simp [oneHotMatrix]
  rw [List.getElem?_eq_none hlen]

/-- Witness for C6: "es" is not in [en, fr, de]; its lookup yields the
sentinel 3 and the one-hot access errors. -/
theorem unknown_label_sentinel_raises_witness :
    "es" ∉ ["en", "fr", "de"] ∧
    (make_label2onehot ["en", "fr", "de"]).1 "es" = 3 ∧
    label2onehot ["en", "fr", "de"] "es" = .error (.sliceOutOfBounds 3) :=
  ⟨by decide,
   (unknown_label_sentinel_raises ["en", "fr", "de"] "es" (by decide)).1,
   (unknown_label_sentinel_raises ["en", "fr", "de"] "es" (by decide)).2⟩

/-- C10: every feature type other than "sparsespeech" and "kaldi" falls
through to the raw-audio backend (`tf_data.extract_features_from_paths`);
dispatch is total and never raises on an unrecognized tag. -/
theorem dispatch_defaults_to_raw_audio (featureType : String)
    (h1 : featureType ≠ "sparsespeech") (h2 : featureType ≠ "kaldi") :
    dispatchBackend featureType = .rawAudio := by
  simp [dispatchBackend, h1, h2]

/-- Witness for C10: the tag "mfcc" is neither precomputed backend and
dispatches to raw audio. -/
theorem dispatch_defaults_to_raw_audio_witness :
    "mfcc" ≠ "sparsespeech" ∧ "mfcc" ≠ "kaldi" ∧
    dispatchBackend "mfcc" = .rawAudio :=
  ⟨by decide, by decide,
   dispatch_defaults_to_raw_audio "mfcc" (by decide) (by decide)⟩

/-- C7 counterexample: with precision 3 and separator ",", the scores file
for the prediction vector [0.12345, 0.5, 0.37655] of utterance u1 over
labels en, fr, de is not the claimed one with row "u1,0.123,0.500,0.377":
`np.format_float_positional` treats the precision as a maximum and prints
0.5 as "0.5", not "0.500". -/
theorem scores_row_not_fixed_precision :
    scoresFileContent ["en", "fr", "de"]
      [("u1", [mkRat 12345 100000, mkRat 1 2, mkRat 37655 100000])] "," 3 ≠
      "en fr de\nu1,0.123,0.500,0.377\n" := by
  decide

/-- C7 amended: with precision 3 (a maximum number of fractional digits;
trailing zeros are trimmed by numpy's positional formatting) and separator
",", the vector [0.12345, 0.5, 0.37655] for utterance u1 produces the row
"u1,0.123,0.5,0.377" beneath the header "en fr de" (the header is always
space-separated and lists the label vocabulary in order). -/
theorem scores_row_trims_trailing_zeros :
    scoresFileContent ["en", "fr", "de"]
      [("u1", [mkRat 12345 100000, mkRat 1 2, mkRat 37655 100000])] "," 3 =
      "en fr de\nu1,0.123,0.5,0.377\n" := by
  decide

/-- C8 counterexample: the marker content for `markerExampleConfig` is
exactly its canonical JSON, whose last character is a line break — the
fingerprinted JSON ends with a newline, so the marker file contents do
terminate with a trailing line break. -/
theorem marker_content_ends_with_newline :
    (config_checksum markerExampleConfig "train").map
        (fun p => markerFileContent p.1) = some markerExampleJson ∧
    markerExampleJson.data.getLast? = some '\n' := by
  exact ⟨rfl, by decide⟩

/-- C8 amended: a fresh cache marker receives exactly the canonical JSON
string used to produce the fingerprint — the final `print(..., end="")`
appends no additional line break — and that canonical JSON itself ends
with the single newline appended by `config_checksum`, so the file
contents end with that line break. -/
theorem marker_is_exact_canonical_json (config : Config)
    (k conf_json digest : String)
    (h : config_checksum config k = some (conf_json, digest)) :
    markerFileContent conf_json = conf_json ∧
    conf_json.data.getLast? = some '\n' := by
  constructor
  · show String.intercalate " " [conf_json] ++ "" = conf_json
    have hone : String.intercalate " " [conf_json] = conf_json := rfl
    rw [hone]
    exact String.append_empty conf_json
  · unfold config_checksum at h
    cases hf : jsonGet config "features" with
    | none =>
      rw [hf] at h
      cases hd : jsonGet config "datasets" <;> rw [hd] at h <;> simp at h
    | some f =>
      rw [hf] at h
      cases hd : jsonGet config "datasets" with
      | none => rw [hd] at h; simp at h
      | some d =>
        rw [hd] at h
        simp only [Option.some.injEq, Prod.mk.injEq] at h
        rw [← h.1, String.data_append]
        exact List.getLast?_concat _

/-- Witness for C8 (amended): the concrete marker config, its canonical
JSON, its digest, and the newline-terminated marker content. -/
theorem marker_is_exact_canonical_json_witness :
    config_checksum markerExampleConfig "train" =
      some (markerExampleJson, "bb996f000e94aa11f8c28c9db17748fa") ∧
    markerFileContent markerExampleJson = markerExampleJson ∧
    markerExampleJson.data.getLast? = some '\n' :=
  ⟨rfl,
   (marker_is_exact_canonical_json markerExampleConfig "train"
      markerExampleJson "bb996f000e94aa11f8c28c9db17748fa" rfl).1,
   (marker_is_exact_canonical_json markerExampleConfig "train"
      markerExampleJson "bb996f000e94aa11f8c28c9db17748fa" rfl).2⟩

/-- A string passing `plainComponent` has a nonempty character list with
no slash in it. -/
theorem plainComponent_props (b : String) (hb : plainComponent b = true) :
    b.data ≠ [] ∧ ∀ c ∈ b.data, c ≠ '/' := by
  unfold plainComponent at hb
  rw [Bool.and_eq_true] at hb
  constructor
  · intro hemp
    rw [hemp] at hb
    simp at hb
  · intro c hc
    have := List.all_eq_true.mp hb.2 c hc
    simpa using this

/-- The last entry of a character list avoiding a character is not that
character. -/
theorem getLast?_ne_of_all (l : List Char) (hall : ∀ c ∈ l, c ≠ '/') :
    l.getLast? ≠ some '/' := by
  induction l with
  | nil => simp
  | cons a t ih =>
    cases t with
    | nil =>
      simp only [List.getLast?_singleton]
      intro hc
      exact hall a (List.mem_cons_self a []) (Option.some.inj hc)
    | cons b t2 =>
      rw [List.getLast?_cons_cons]
      exact ih (fun c hc => hall c (List.mem_cons_of_mem a hc))

/-- Joining a nonempty path not ending in a slash with a plain component
inserts exactly one slash, as `os.path.join` does. -/
theorem ospathJoin_plain (a b : String) (ha : a ≠ "")
    (ha2 : strEndsWithSlash a = false) (hb : plainComponent b = true) :
    ospathJoin a b = a ++ "/" ++ b := by
  obtain ⟨hne, hall⟩ := plainComponent_props b hb
  have hstart : strStartsWithSlash b = false := by
    unfold strStartsWithSlash
    rcases hd : b.data with _ | ⟨c, cs⟩
    · exact absurd hd hne
    · have hc : c ≠ '/' := hall c (by simp [hd])
      simp [hc]
  unfold ospathJoin
  rw [hstart]
  simp [ha, ha2]

/-- The result of a plain-component join is again nonempty and does not
end in a slash. -/
theorem ospathJoin_plain_props (a b : String) (hb : plainComponent b = true) :
    (a ++ "/" ++ b) ≠ "" ∧ strEndsWithSlash (a ++ "/" ++ b) = false := by
  obtain ⟨hne, hall⟩ := plainComponent_props b hb
  have hdata : (a ++ "/" ++ b).data = (a.data ++ ['/']) ++ b.data := by
    simp [String.data_append]
  constructor
  · intro h
    have hd0 : (a ++ "/" ++ b).data = [] := by simp [h]
    rw [hdata] at hd0
    simp at hd0
  · unfold strEndsWithSlash
    rw [hdata, List.getLast?_append]
    have hbl : b.data.getLast? ≠ some '/' := getLast?_ne_of_all b.data hall
    rcases hglv : b.data.getLast? with _ | c
    · exact absurd hglv (by simp [List.getLast?_eq_none_iff, hne])
    · have hc : c ≠ '/' := by
        intro hcc
        exact hbl (by rw [hglv, hcc])
      simp [hc]

/-- C9 amended: the training-side features cache path is
`cache_root/datagroup_key/feature_type/digest` (e2e.py lines 336-341),
while the prediction-side path is
`cache_root/dataset_key/"test"/feature_type/digest` (lines 597-603): the
prediction cache entry is keyed by the dataset key and the literal
datagroup name "test", not only by the training path's triple. -/
theorem features_cache_paths (root dg dsk ds ft digest : String)
    (hroot1 : root ≠ "") (hroot2 : strEndsWithSlash root = false)
    (hdg : plainComponent dg = true) (hdsk : plainComponent dsk = true)
    (hds : plainComponent ds = true) (hft : plainComponent ft = true)
    (hdigest : plainComponent digest = true) :
    trainFeaturesCachePath root dg ft digest =
      root ++ "/" ++ dg ++ "/" ++ ft ++ "/" ++ digest ∧
    predictFeaturesCachePath root dsk ds ft digest =
      root ++ "/" ++ dsk ++ "/" ++ ds ++ "/" ++ ft ++ "/" ++ digest := by
  constructor
  · unfold trainFeaturesCachePath
    rw [ospathJoin_plain root dg hroot1 hroot2 hdg]
    obtain ⟨h1, h2⟩ := ospathJoin_plain_props root dg hdg
    rw [ospathJoin_plain _ ft h1 h2 hft]
    obtain ⟨h3, h4⟩ := ospathJoin_plain_props _ ft hft
    rw [ospathJoin_plain _ digest h3 h4 hdigest]
  · unfold predictFeaturesCachePath
    rw [ospathJoin_plain root dsk hroot1 hroot2 hdsk]
    obtain ⟨h1, h2⟩ := ospathJoin_plain_props root dsk hdsk
    rw [ospathJoin_plain _ ds h1 h2 hds]
    obtain ⟨h3, h4⟩ := ospathJoin_plain_props _ ds hds
    rw [ospathJoin_plain _ ft h3 h4 hft]
    obtain ⟨h5, h6⟩ := ospathJoin_plain_props _ ft hft
    rw [ospathJoin_plain _ digest h5 h6 hdigest]

/-- C9 counterexample: on the prediction path with dataset key priv
"common-voice", datagroup "test" and feature type "mfcc", the cache
location contains the dataset key and the literal "test" component — it is
not `cache_root/datagroup_key/feature_type/digest`. -/
theorem prediction_cache_path_counterexample :
    predictFeaturesCachePath "/cache/features" "common-voice" "test" "mfcc" "0011aabb" =
      "/cache/features/common-voice/test/mfcc/0011aabb" ∧
    predictFeaturesCachePath "/cache/features" "common-voice" "test" "mfcc" "0011aabb" ≠
      "/cache/features/test/mfcc/0011aabb" := by
  exact ⟨rfl, by decide⟩

/-- Witness for C9 (amended) at concrete components. -/
theorem features_cache_paths_witness :
    plainComponent "train" = true ∧
    plainComponent "common-voice" = true ∧
    trainFeaturesCachePath "/cache/features" "train" "mfcc" "0011aabb" =
      "/cache/features/train/mfcc/0011aabb" ∧
    predictFeaturesCachePath "/cache/features" "common-voice" "test" "mfcc" "0011aabb" =
      "/cache/features/common-voice/test/mfcc/0011aabb" :=
  ⟨by decide, by decide,
   (features_cache_paths "/cache/features" "train" "common-voice" "test" "mfcc" "0011aabb"
      (by decide) (by decide) (by decide) (by decide) (by decide) (by decide) (by decide)).1,
   (features_cache_paths "/cache/features" "train" "common-voice" "test" "mfcc" "0011aabb"
      (by decide) (by decide) (by decide) (by decide) (by decide) (by decide) (by decide)).2⟩

/-- C2: once the manifest dicts have been merged, registry construction
fails with the mismatch consistency error exactly when the utterance id
set of `utt2path` differs from that of `utt2meta` (so an id with a path
row but no label row is fatal), and succeeds exactly when they coincide. -/
theorem registry_mismatch_iff (dss : List DatasetConf)
    (utt2path : List (String × String)) (utt2meta : List (String × UttMeta))
    (h : buildMaps dss = .ok (utt2path, utt2meta)) :
    (build_registry dss = .error .mismatch ↔ keyset utt2path ≠ keyset utt2meta) ∧
    ((build_registry dss).isOk = true ↔ keyset utt2path = keyset utt2meta) := by
  have hred : build_registry dss =
      if keyset utt2path = keyset utt2meta
      then .ok ⟨utt2path.map Prod.fst, utt2path, utt2meta⟩
      else .error .mismatch := by
    unfold build_registry
    rw [h]
  by_cases hk : keyset utt2path = keyset utt2meta
  · rw [hred, if_pos hk]
    exact ⟨⟨fun hcontr => Except.noConfusion hcontr, fun hne => absurd hk hne⟩,
           ⟨fun _ => hk, fun _ => rfl⟩⟩
  · rw [hred, if_neg hk]
    exact ⟨⟨fun _ => hk, fun _ => rfl⟩,
           ⟨fun hcontr => Bool.noConfusion hcontr, fun heq => absurd heq hk⟩⟩

/-- Witness for C2: a dataset whose id "b" has a path row but no label
row; the merged dicts have different key sets and registry construction
returns the mismatch error. -/
theorem registry_mismatch_iff_witness :
    buildMaps [mismatchDataset] =
      .ok ([("a", "/x"), ("b", "/y")], [("a", ⟨"en", "d1", "-1.0"⟩)]) ∧
    keyset [("a", "/x"), ("b", "/y")] ≠
      keyset [("a", (⟨"en", "d1", "-1.0"⟩ : UttMeta))] ∧
    build_registry [mismatchDataset] = .error .mismatch :=
  ⟨rfl, by decide,
   (registry_mismatch_iff [mismatchDataset]
      [("a", "/x"), ("b", "/y")] [("a", ⟨"en", "d1", "-1.0"⟩)] rfl).1.mpr
     (by decide)⟩

/-- The utterance-id component of a successful `extract_features` run is
exactly the output of `selectUtterances` on the registry order. -/
theorem extract_features_utterance_list (dss : List DatasetConf)
    (featureType : String) (shuffle : Bool) (perm : List String → List String)
    (file_limit : Nat) (reg : Registry)
    (hreg : build_registry dss = .ok reg)
    (out : Backend × List String × List String ×
      List (String × String × String × String))
    (hout : extract_features dss featureType shuffle perm file_limit = .ok out) :
    out.2.1 = selectUtterances shuffle perm file_limit reg.utterance_list := by
  unfold extract_features at hout
  rw [hreg] at hout
  have hout2 : (match assemblePathsMeta reg.utt2path reg.utt2meta
        (selectUtterances shuffle perm file_limit reg.utterance_list) with
      | .error e => (.error e : Except RegError _)
      | .ok (paths, paths_meta) =>
        .ok (dispatchBackend featureType,
          selectUtterances shuffle perm file_limit reg.utterance_list,
          paths, paths_meta)) = .ok out := hout
  cases hA : assemblePathsMeta reg.utt2path reg.utt2meta
      (selectUtterances shuffle perm file_limit reg.utterance_list) with
  | error e => rw [hA] at hout2; simp at hout2
  | ok pr =>
    obtain ⟨paths, paths_meta⟩ := pr
    rw [hA] at hout2
    have hinj := Except.ok.inj hout2
    rw [← hinj]

/-- C4: with shuffling enabled and a nonzero file limit configured, the
utterance list processed downstream is exactly the first `file_limit` ids
of the shuffled order (the permutation `random.shuffle` applied in this
run) — truncation happens after the shuffle, not on manifest order. -/
theorem truncation_applies_after_shuffle (dss : List DatasetConf)
    (featureType : String) (perm : List String → List String)
    (file_limit : Nat) (hn : file_limit ≠ 0) (reg : Registry)
    (hreg : build_registry dss = .ok reg)
    (out : Backend × List String × List String ×
      List (String × String × String × String))
    (hout : extract_features dss featureType true perm file_limit = .ok out) :
    out.2.1 = (perm reg.utterance_list).take file_limit := by
  rw [extract_features_utterance_list dss featureType true perm file_limit
    reg hreg out hout]
  simp [selectUtterances, hn]

/-- Witness for C4: five utterances, the reversing permutation and file
limit 2 select the first two ids of the reversed order, which are not the
first two ids of manifest order. -/
theorem truncation_applies_after_shuffle_witness :
    build_registry [fiveUttDataset] = .ok fiveUttRegistry ∧
    extract_features [fiveUttDataset] "mfcc" true List.reverse 2 =
      .ok (Backend.rawAudio, ["u5", "u4"], ["/p5", "/p4"],
        [("u5", "en", "d1", "-1.0"), ("u4", "en", "d1", "-1.0")]) ∧
    ["u5", "u4"] = (List.reverse fiveUttRegistry.utterance_list).take 2 ∧
    (List.reverse fiveUttRegistry.utterance_list).take 2 ≠
      fiveUttRegistry.utterance_list.take 2 :=
  ⟨rfl, rfl,
   truncation_applies_after_shuffle [fiveUttDataset] "mfcc" List.reverse 2
     (by decide) fiveUttRegistry rfl
     (Backend.rawAudio, ["u5", "u4"], ["/p5", "/p4"],
       [("u5", "en", "d1", "-1.0"), ("u4", "en", "d1", "-1.0")]) rfl,
   by decide⟩

/-- Unfolding `enabledIdsOf` over a row with an enabled label. -/
theorem enabledIdsOf_cons_pos (enabled : List String) (v l : String)
    (rest : List (String × String)) (hl : enabled.contains l = true) :
    enabledIdsOf enabled ((v, l) :: rest) = v :: enabledIdsOf enabled rest := by
  have hl' : l ∈ enabled := by simpa using hl
  simp [enabledIdsOf, List.filter_cons, hl']

/-- Unfolding `enabledIdsOf` over a row with a disabled label. -/
theorem enabledIdsOf_cons_neg (enabled : List String) (v l : String)
    (rest : List (String × String)) (hl : enabled.contains l = false) :
    enabledIdsOf enabled ((v, l) :: rest) = enabledIdsOf enabled rest := by
  have hl' : l ∉ enabled := by simpa using hl
  simp [enabledIdsOf, List.filter_cons, hl']

/-- Unfolding `skippedIdsOf` over a row with an enabled label. -/
theorem skippedIdsOf_cons_pos (enabled : List String) (v l : String)
    (rest : List (String × String)) (hl : enabled.contains l = true) :
    skippedIdsOf enabled ((v, l) :: rest) = skippedIdsOf enabled rest := by
  have hl' : l ∈ enabled := by simpa using hl
  simp [skippedIdsOf, List.filter_cons, hl']

/-- Unfolding `skippedIdsOf` over a row with a disabled label. -/
theorem skippedIdsOf_cons_neg (enabled : List String) (v l : String)
    (rest : List (String × String)) (hl : enabled.contains l = false) :
    skippedIdsOf enabled ((v, l) :: rest) = v :: skippedIdsOf enabled rest := by
  have hl' : l ∉ enabled := by simpa using hl
  simp [skippedIdsOf, List.filter_cons, hl']

/-- Unfolding `keptIdsOf` over a skipped row. -/
theorem keptIdsOf_cons_skip (skipped : List String) (v p : String)
    (rest : List (String × String)) (hv : skipped.contains v = true) :
    keptIdsOf skipped ((v, p) :: rest) = keptIdsOf skipped rest := by
  have hv' : v ∈ skipped := by simpa using hv
  simp [keptIdsOf, List.filter_cons, hv']

/-- Unfolding `keptIdsOf` over a row that is not skipped. -/
theorem keptIdsOf_cons_keep (skipped : List String) (v p : String)
    (rest : List (String × String)) (hv : skipped.contains v = false) :
    keptIdsOf skipped ((v, p) :: rest) = v :: keptIdsOf skipped rest := by
  have hv' : v ∉ skipped := by simpa using hv
  simp [keptIdsOf, List.filter_cons, hv']

/-- Dict membership is preserved by appending entries on the right. -/
theorem alistContains_append_left {α : Type} (l1 l2 : List (String × α))
    (u : String) (h : alistContains l1 u = true) :
    alistContains (l1 ++ l2) u = true := by
  simp only [alistContains, List.any_append]
  simp only [alistContains] at h
  rw [h]
  rfl

/-- The label pass over a disabled-label row only extends the skip set. -/
theorem parseLabels_cons_skip (enabled : List String) (dsKey v l : String)
    (rest : List (String × String)) (m : List (String × UttMeta))
    (s : List String) (hl : enabled.contains l = false) :
    parseLabels enabled dsKey ((v, l) :: rest) m s =
      parseLabels enabled dsKey rest m (s ++ [v]) := by
  have hl' : l ∉ enabled := by simpa using hl
  simp [parseLabels, hl']

/-- The label pass over an enabled-label row whose id is already present
raises the duplicate assertion. -/
theorem parseLabels_cons_dup (enabled : List String) (dsKey v l : String)
    (rest : List (String × String)) (m : List (String × UttMeta))
    (s : List String) (hl : enabled.contains l = true)
    (hc : alistContains m v = true) :
    parseLabels enabled dsKey ((v, l) :: rest) m s = .error (.dupLabel v) := by
  have hl' : l ∈ enabled := by simpa using hl
  simp [parseLabels, hl', hc]

/-- The label pass over an enabled-label row with a fresh id stores the
row's metadata. -/
theorem parseLabels_cons_add (enabled : List String) (dsKey v l : String)
    (rest : List (String × String)) (m : List (String × UttMeta))
    (s : List String) (hl : enabled.contains l = true)
    (hc : alistContains m v = false) :
    parseLabels enabled dsKey ((v, l) :: rest) m s =
      parseLabels enabled dsKey rest (m ++ [(v, ⟨l, dsKey, "-1.0"⟩)]) s := by
  have hl' : l ∈ enabled := by simpa using hl
  simp [parseLabels, hl', hc]

/-- The path pass skips a row whose id was filtered out. -/
theorem parsePaths_cons_skip (skipped : List String) (v p : String)
    (rest acc : List (String × String)) (hv : skipped.contains v = true) :
    parsePaths skipped ((v, p) :: rest) acc = parsePaths skipped rest acc := by
  have hv' : v ∈ skipped := by simpa using hv
  simp [parsePaths, hv']

/-- The path pass over a kept row whose id is already present raises the
duplicate assertion. -/
theorem parsePaths_cons_dup (skipped : List String) (v p : String)
    (rest acc : List (String × String)) (hv : skipped.contains v = false)
    (hc : alistContains acc v = true) :
    parsePaths skipped ((v, p) :: rest) acc = .error (.dupPath v) := by
  have hv' : v ∉ skipped := by simpa using hv
  simp [parsePaths, hv', hc]

/-- The path pass over a kept row with a fresh id stores the path. -/
theorem parsePaths_cons_add (skipped : List String) (v p : String)
    (rest acc : List (String × String)) (hv : skipped.contains v = false)
    (hc : alistContains acc v = false) :
    parsePaths skipped ((v, p) :: rest) acc =
      parsePaths skipped rest (acc ++ [(v, p)]) := by
  have hv' : v ∉ skipped := by simpa using hv
  simp [parsePaths, hv', hc]

/-- If an id already stored in `utt2meta` reappears among the remaining
enabled-label rows, the label pass hits the duplicate assertion. -/
theorem parseLabels_error_of_mem (enabled : List String) (dsKey : String)
    (rows : List (String × String)) (u : String) :
    ∀ (utt2meta : List (String × UttMeta)) (skipped : List String),
    alistContains utt2meta u = true → u ∈ enabledIdsOf enabled rows →
    ∃ e, parseLabels enabled dsKey rows utt2meta skipped = .error e := by
  induction rows with
  | nil =>
    intro m s hm hin
    simp [enabledIdsOf] at hin
  | cons row rest ih =>
    obtain ⟨v, l⟩ := row
    intro m s hm hin
    cases hl : enabled.contains l with
    | true =>
      cases hc : alistContains m v with
      | true =>
        exact ⟨.dupLabel v, parseLabels_cons_dup enabled dsKey v l rest m s hl hc⟩
      | false =>
        have hne : u ≠ v := by
          intro huv
          rw [← huv] at hc
          rw [hm] at hc
          cases hc
        rw [enabledIdsOf_cons_pos enabled v l rest hl] at hin
        have hin' : u ∈ enabledIdsOf enabled rest := by
          rcases List.mem_cons.mp hin with h | h
          · exact absurd h hne
          · exact h
        have hm' : alistContains (m ++ [(v, ⟨l, dsKey, "-1.0"⟩)]) u = true :=
          alistContains_append_left m _ u hm
        obtain ⟨e, he⟩ := ih (m ++ [(v, ⟨l, dsKey, "-1.0"⟩)]) s hm' hin'
        exact ⟨e, by rw [parseLabels_cons_add enabled dsKey v l rest m s hl hc]; exact he⟩
    | false =>
      rw [enabledIdsOf_cons_neg enabled v l rest hl] at hin
      obtain ⟨e, he⟩ := ih m (s ++ [v]) hm hin
      exact ⟨e, by rw [parseLabels_cons_skip enabled dsKey v l rest m s hl]; exact he⟩

/-- A duplicated id among the enabled-label rows makes the label pass
fail, from any starting state of the merged dicts. -/
theorem parseLabels_error_of_dup (enabled : List String) (dsKey : String) :
    ∀ (rows : List (String × String)),
    ¬ (enabledIdsOf enabled rows).Nodup →
    ∀ (utt2meta : List (String × UttMeta)) (skipped : List String),
    ∃ e, parseLabels enabled dsKey rows utt2meta skipped = .error e := by
  intro rows
  induction rows with
  | nil =>
    intro hdup
    exact absurd (by simp [enabledIdsOf]) hdup
  | cons row rest ih =>
    obtain ⟨v, l⟩ := row
    intro hdup m s
    cases hl : enabled.contains l with
    | true =>
      rw [enabledIdsOf_cons_pos enabled v l rest hl] at hdup
      cases hc : alistContains m v with
      | true =>
        exact ⟨.dupLabel v, parseLabels_cons_dup enabled dsKey v l rest m s hl hc⟩
      | false =>
        have hsplit : v ∈ enabledIdsOf enabled rest ∨
            ¬ (enabledIdsOf enabled rest).Nodup := by
          by_cases hv : v ∈ enabledIdsOf enabled rest
          · exact Or.inl hv
          · right
            intro hnd
            exact hdup (List.nodup_cons.mpr ⟨hv, hnd⟩)
        rcases hsplit with hv | hnd
        · have hm' : alistContains (m ++ [(v, ⟨l, dsKey, "-1.0"⟩)]) v = true := by
            simp [alistContains, List.any_append]
          obtain ⟨e, he⟩ :=
            parseLabels_error_of_mem enabled dsKey rest v
              (m ++ [(v, ⟨l, dsKey, "-1.0"⟩)]) s hm' hv
          exact ⟨e, by rw [parseLabels_cons_add enabled dsKey v l rest m s hl hc]; exact he⟩
        · obtain ⟨e, he⟩ := ih hnd (m ++ [(v, ⟨l, dsKey, "-1.0"⟩)]) s
          exact ⟨e, by rw [parseLabels_cons_add enabled dsKey v l rest m s hl hc]; exact he⟩
    | false =>
      rw [enabledIdsOf_cons_neg enabled v l rest hl] at hdup
      obtain ⟨e, he⟩ := ih hdup m (s ++ [v])
      exact ⟨e, by rw [parseLabels_cons_skip enabled dsKey v l rest m s hl]; exact he⟩

/-- If an id already stored in `utt2path` reappears among the remaining
non-skipped path rows, the path pass hits the duplicate assertion. -/
theorem parsePaths_error_of_mem (skipped : List String) (u : String) :
    ∀ (rows : List (String × String)) (acc : List (String × String)),
    alistContains acc u = true → u ∈ keptIdsOf skipped rows →
    ∃ e, parsePaths skipped rows acc = .error e := by
  intro rows
  induction rows with
  | nil =>
    intro p hm hin
    simp [keptIdsOf] at hin
  | cons row rest ih =>
    obtain ⟨v, pth⟩ := row
    intro p hm hin
    cases hv : skipped.contains v with
    | true =>
      rw [keptIdsOf_cons_skip skipped v pth rest hv] at hin
      obtain ⟨e, he⟩ := ih p hm hin
      exact ⟨e, by rw [parsePaths_cons_skip skipped v pth rest p hv]; exact he⟩
    | false =>
      cases hc : alistContains p v with
      | true =>
        exact ⟨.dupPath v, parsePaths_cons_dup skipped v pth rest p hv hc⟩
      | false =>
        have hne : u ≠ v := by
          intro huv
          rw [← huv] at hc
          rw [hm] at hc
          cases hc
        rw [keptIdsOf_cons_keep skipped v pth rest hv] at hin
        have hin' : u ∈ keptIdsOf skipped rest := by
          rcases List.mem_cons.mp hin with h | h
          · exact absurd h hne
          · exact h
        have hm' : alistContains (p ++ [(v, pth)]) u = true :=
          alistContains_append_left p _ u hm
        obtain ⟨e, he⟩ := ih (p ++ [(v, pth)]) hm' hin'
        exact ⟨e, by rw [parsePaths_cons_add skipped v pth rest p hv hc]; exact he⟩

/-- A duplicated id among the path rows that survive label filtering makes
the path pass fail, from any starting `utt2path`. -/
theorem parsePaths_error_of_dup (skipped : List String) :
    ∀ (rows : List (String × String)),
    ¬ (keptIdsOf skipped rows).Nodup →
    ∀ (acc : List (String × String)),
    ∃ e, parsePaths skipped rows acc = .error e := by
  intro rows
  induction rows with
  | nil =>
    intro hdup
    exact absurd (by simp [keptIdsOf]) hdup
  | cons row rest ih =>
    obtain ⟨v, pth⟩ := row
    intro hdup p
    cases hv : skipped.contains v with
    | true =>
      rw [keptIdsOf_cons_skip skipped v pth rest hv] at hdup
      obtain ⟨e, he⟩ := ih hdup p
      exact ⟨e, by rw [parsePaths_cons_skip skipped v pth rest p hv]; exact he⟩
    | false =>
      rw [keptIdsOf_cons_keep skipped v pth rest hv] at hdup
      cases hc : alistContains p v with
      | true =>
        exact ⟨.dupPath v, parsePaths_cons_dup skipped v pth rest p hv hc⟩
      | false =>
        have hsplit : v ∈ keptIdsOf skipped rest ∨
            ¬ (keptIdsOf skipped rest).Nodup := by
          by_cases hvm : v ∈ keptIdsOf skipped rest
          · exact Or.inl hvm
          · right
            intro hnd
            exact hdup (List.nodup_cons.mpr ⟨hvm, hnd⟩)
        rcases hsplit with hvm | hnd
        · have hm' : alistContains (p ++ [(v, pth)]) v = true := by
            simp [alistContains, List.any_append]
          obtain ⟨e, he⟩ := parsePaths_error_of_mem skipped v rest
            (p ++ [(v, pth)]) hm' hvm
          exact ⟨e, by rw [parsePaths_cons_add skipped v pth rest p hv hc]; exact he⟩
        · obtain ⟨e, he⟩ := ih hnd (p ++ [(v, pth)])
          exact ⟨e, by rw [parsePaths_cons_add skipped v pth rest p hv hc]; exact he⟩

/-- A successful label pass returns exactly the incoming skip set followed
by the disabled-label ids of its rows. -/
theorem parseLabels_skipped (enabled : List String) (dsKey : String) :
    ∀ (rows : List (String × String)) (utt2meta : List (String × UttMeta))
      (skipped : List String) (m : List (String × UttMeta)) (sk : List String),
    parseLabels enabled dsKey rows utt2meta skipped = .ok (m, sk) →
    sk = skipped ++ skippedIdsOf enabled rows := by
  intro rows
  induction rows with
  | nil =>
    intro m0 s0 m sk h
    simp [parseLabels] at h
    rw [← h.2]
    simp [skippedIdsOf]
  | cons row rest ih =>
    obtain ⟨v, l⟩ := row
    intro m0 s0 m sk h
    cases hl : enabled.contains l with
    | true =>
      cases hc : alistContains m0 v with
      | true =>
        rw [parseLabels_cons_dup enabled dsKey v l rest m0 s0 hl hc] at h
        cases h
      | false =>
        rw [skippedIdsOf_cons_pos enabled v l rest hl]
        rw [parseLabels_cons_add enabled dsKey v l rest m0 s0 hl hc] at h
        exact ih (m0 ++ [(v, ⟨l, dsKey, "-1.0"⟩)]) s0 m sk h
    | false =>
      rw [skippedIdsOf_cons_neg enabled v l rest hl]
      rw [parseLabels_cons_skip enabled dsKey v l rest m0 s0 hl] at h
      have := ih m0 (s0 ++ [v]) m sk h
      rw [this]
      simp

/-- A dataset with a duplicated enabled-label id, or a duplicated
surviving path id, makes its dataset pass fail from any incoming state. -/
theorem processDataset_error_of_dup (ds : DatasetConf)
    (hdup : ¬ (enabledIdsOf ds.labels ds.utt2label).Nodup ∨
            ¬ (keptIdsOf (skippedIdsOf ds.labels ds.utt2label) ds.utt2path).Nodup)
    (st : List (String × String) × List (String × UttMeta)) :
    ∃ e, processDataset st ds = .error e := by
  rcases hdup with hd | hd
  · obtain ⟨e, he⟩ :=
      parseLabels_error_of_dup ds.labels ds.key ds.utt2label hd st.2 []
    exact ⟨e, by simp [processDataset, he]⟩
  · cases hL : parseLabels ds.labels ds.key ds.utt2label st.2 [] with
    | error e => exact ⟨e, by simp [processDataset, hL]⟩
    | ok pr =>
      obtain ⟨m, sk⟩ := pr
      have hsk : sk = skippedIdsOf ds.labels ds.utt2label := by
        have := parseLabels_skipped ds.labels ds.key ds.utt2label st.2 [] m sk hL
        simpa using this
      have hd2 : ¬ (keptIdsOf sk ds.utt2path).Nodup := by
        rw [hsk]
        exact hd
      cases hdur : ds.utt2dur with
      | none =>
        obtain ⟨e, he⟩ := parsePaths_error_of_dup sk ds.utt2path hd2 st.1
        exact ⟨e, by simp [processDataset, hL, hdur, he]⟩
      | some rows =>
        cases hD : parseDurations rows m with
        | error e => exact ⟨e, by simp [processDataset, hL, hdur, hD]⟩
        | ok m2 =>
          obtain ⟨e, he⟩ := parsePaths_error_of_dup sk ds.utt2path hd2 st.1
          exact ⟨e, by simp [processDataset, hL, hdur, hD, he]⟩

/-- A dataset whose pass always fails makes the whole dataset loop fail
whenever it occurs in the dataset list. -/
theorem buildMapsFrom_error_of_mem (ds : DatasetConf)
    (herr : ∀ st, ∃ e, processDataset st ds = .error e) :
    ∀ (dss : List DatasetConf), ds ∈ dss →
    ∀ st, ∃ e, buildMapsFrom st dss = .error e := by
  intro dss
  induction dss with
  | nil => intro hmem; cases hmem
  | cons d rest ih =>
    intro hmem st
    rcases List.mem_cons.mp hmem with rfl | hmem2
    · obtain ⟨e, he⟩ := herr st
      exact ⟨e, by simp [buildMapsFrom, he]⟩
    · cases hP : processDataset st d with
      | error e => exact ⟨e, by simp [buildMapsFrom, hP]⟩
      | ok st2 =>
        obtain ⟨e, he⟩ := ih hmem2 st2
        exact ⟨e, by simp [buildMapsFrom, hP, he]⟩

/-- C3 amended: if any dataset of the run defines the same utterance id
twice with enabled labels in its `utt2label` rows, or twice in the
`utt2path` rows that survive label-based filtering, registry construction
fails with a fatal error and `extract_features` never reaches a backend.
(The amendment is forced by the `continue` at e2e.py line 177: duplicate
`utt2path` rows whose id was skipped by label filtering raise nothing.) -/
theorem duplicate_manifest_id_fatal (dss : List DatasetConf) (ds : DatasetConf)
    (hmem : ds ∈ dss)
    (hdup : ¬ (enabledIdsOf ds.labels ds.utt2label).Nodup ∨
            ¬ (keptIdsOf (skippedIdsOf ds.labels ds.utt2label) ds.utt2path).Nodup) :
    (build_registry dss).isOk = false ∧
    ∀ (featureType : String) (shuffle : Bool)
      (perm : List String → List String) (file_limit : Nat),
      (extract_features dss featureType shuffle perm file_limit).isOk = false := by
  obtain ⟨e, he⟩ := buildMapsFrom_error_of_mem ds
    (processDataset_error_of_dup ds hdup) dss hmem ([], [])
  have hbr : build_registry dss = .error e := by
    unfold build_registry buildMaps
    rw [he]
  constructor
  · rw [hbr]
    rfl
  · intro featureType shuffle perm file_limit
    unfold extract_features
    rw [hbr]
    rfl

/-- Witness for C3 (amended): two enabled-label rows for id "u" make the
registry fail and every extraction configuration fail before dispatch. -/
theorem duplicate_manifest_id_fatal_witness :
    dupLabelDataset ∈ [dupLabelDataset] ∧
    ¬ (enabledIdsOf dupLabelDataset.labels dupLabelDataset.utt2label).Nodup ∧
    (build_registry [dupLabelDataset]).isOk = false ∧
    (extract_features [dupLabelDataset] "mfcc" false id 0).isOk = false :=
  ⟨List.mem_cons_self dupLabelDataset [], by decide,
   (duplicate_manifest_id_fatal [dupLabelDataset] dupLabelDataset
      (List.mem_cons_self dupLabelDataset []) (Or.inl (by decide))).1,
   (duplicate_manifest_id_fatal [dupLabelDataset] dupLabelDataset
      (List.mem_cons_self dupLabelDataset []) (Or.inl (by decide))).2
     "mfcc" false id 0⟩

/-- C3 counterexample: id "u" is defined twice by the same manifest kind
(two `utt2path` rows), yet registry construction succeeds with an empty
registry, because both rows are skipped by label filtering before the
duplicate assertion runs. -/
theorem duplicate_path_of_skipped_id_not_fatal :
    skippedDupPathDataset.utt2path.map Prod.fst = ["u", "u"] ∧
    build_registry [skippedDupPathDataset] = .ok ⟨[], [], []⟩ :=
  ⟨rfl, rfl⟩
